import Mathlib

/-!
# ConnectSphere server core: a shallow embedding

This file embeds the in-memory chat-server core of server.js (the
socket.io event handlers login, createRoom, joinRoom, sendMessage,
getMessagesForRoom, disconnect) as pure Lean state-transition functions,
and proves properties of the specification against that embedding.

Modelling conventions:
* JS objects used as string-keyed maps (serverUsers, serverMessagesByRoom)
  become association lists `List (String × α)` with first-match lookup,
  in-place overwrite and delete.
* socket.io room membership (the set of socket.io rooms each socket has
  joined, excluding the implicit private room named by the id of the
  socket itself) becomes an explicit table `groups` mapping a connection
  id to the list of room ids it is subscribed to; `socket.join` adds the
  id if absent, `socket.leave` removes it, and `io.to(rid).emit` targets
  exactly the connections whose list contains `rid`.  socket.io removes a
  disconnected socket from all of its rooms, so `disconnect` drops the
  whole `groups` entry of the connection.
* Fresh id generation (`Date.now()` plus a random suffix) and timestamps
  are modelled by a monotone counter `nextId`; the only property the code
  relies on is freshness and monotonicity.
* A possibly-absent JS argument is an `Option String`; JS truthiness
  `!s` on a string argument holds exactly for `none` and `some ""`.
-/

/-- Values stored in serverUsers: `{ id: socket.id, name: username.jsTrim() }`. -/
structure User where
  id : String
  name : String
deriving DecidableEq, Repr

/-- Entries of serverRooms: `{ id, name, createdBy }`. -/
structure Room where
  id : String
  name : String
  createdBy : User
deriving DecidableEq, Repr

/-- Messages appended by the sendMessage handler. -/
structure Message where
  id : String
  roomId : String
  sender : User
  text : String
  timestamp : Nat
deriving DecidableEq, Repr

/-- JS whitespace as tested by `String.prototype.trim` (ASCII subset:
tab, LF, VT, FF, CR, space).  Defined over character codes so that it
reduces inside the kernel. -/
def isJsSpace (c : Char) : Bool :=
  c.val = 9 || c.val = 10 || c.val = 11 || c.val = 12 || c.val = 13 || c.val = 32

/-- Model of JS `String.prototype.trim`: strip leading and trailing
whitespace.  (The built-in `String.trim` is defined by well-founded
recursion and does not reduce definitionally, so concrete evaluation
needs this list-based equivalent.) -/
def String.jsTrim (s : String) : String :=
  ⟨((s.data.dropWhile isJsSpace).reverse.dropWhile isJsSpace).reverse⟩

/-- Model of JS `String.prototype.toLowerCase` (ASCII letters). -/
def String.jsToLower (s : String) : String :=
  ⟨s.data.map (fun c => if 65 ≤ c.val && c.val ≤ 90 then Char.ofNat (c.toNat + 32) else c)⟩

/-- First-match association-list lookup (JS property read `m[k]`). -/
def alookup {α : Type} : List (String × α) → String → Option α
  | [], _ => none
  | (k', v) :: rest, k => if k' = k then some v else alookup rest k

/-- Association-list overwrite (JS property write `m[k] = v`): replaces the
first binding of `k`, or appends a new binding. -/
def aset {α : Type} : List (String × α) → String → α → List (String × α)
  | [], k, v => [(k, v)]
  | (k', v') :: rest, k, v =>
    if k' = k then (k, v) :: rest else (k', v') :: aset rest k v

/-- Association-list delete (JS `delete m[k]`). -/
def aremove {α : Type} : List (String × α) → String → List (String × α)
  | [], _ => []
  | (k', v') :: rest, k =>
    if k' = k then aremove rest k else (k', v') :: aremove rest k

/-- The shared in-memory server state of server.js. -/
structure ServerState where
  serverUsers : List (String × User)
  serverRooms : List Room
  serverMessagesByRoom : List (String × List Message)
  groups : List (String × List String)
  nextId : Nat
deriving DecidableEq, Repr

/-- The state at process start: all three stores empty, nobody subscribed. -/
def initialState : ServerState := ⟨[], [], [], [], 0⟩

/-- The list of room ids the connection is currently subscribed to
(excluding the implicit private room named by its own id). -/
def groupsOf (s : ServerState) (conn : String) : List String :=
  (alookup s.groups conn).getD []

/-- The connection is currently in the broadcast group of room `rid`. -/
def subscribed (s : ServerState) (conn rid : String) : Prop :=
  rid ∈ groupsOf s conn

instance (s : ServerState) (conn rid : String) : Decidable (subscribed s conn rid) := by
  unfold subscribed groupsOf
  exact inferInstance

/-- Model of `socket.join(rid)`: add `rid` to the room set of the
connection (socket.io rooms form a set, so a repeated join is a no-op). -/
def joinGroup (g : List (String × List String)) (conn rid : String) :
    List (String × List String) :=
  let cur := (alookup g conn).getD []
  aset g conn (if rid ∈ cur then cur else cur ++ [rid])

/-- The connections `io.to(rid).emit` delivers to: every connection whose
group set contains `rid`. -/
def roomMembers (s : ServerState) (rid : String) : List String :=
  (s.groups.map Prod.fst).filter (fun c => decide (rid ∈ groupsOf s c))

/-- Outbound events pushed by a handler besides its callback response. -/
inductive Emit
  /-- Model of `io.to(rid).emit` for newMessage, with its recipient set. -/
  | newMessage (recipients : List String) (m : Message)
  /-- Model of `io.emit` for roomCreated: broadcast to every connection. -/
  | roomCreatedAll (room : Room)
deriving DecidableEq, Repr

/-- Callback payload of the login handler. -/
inductive LoginRes
  | ok (currentUser : User) (rooms : List Room)
  | err (error : String)
deriving DecidableEq, Repr

/-- Callback payload of the createRoom handler.  The existing-room case
carries the room, `isNew := false` and an informational error string in
one payload, exactly as the source builds it. -/
inductive CreateRes
  | ok (room : Room) (isNew : Bool)
  | conflict (room : Room) (isNew : Bool) (error : String)
  | err (error : String)
deriving DecidableEq, Repr

/-- Callback payload of the joinRoom handler. -/
inductive JoinRes
  | ok (messages : List Message)
  | err (error : String)
deriving DecidableEq, Repr

/-- Callback payload of the sendMessage handler. -/
inductive SendRes
  | ok (message : Message)
  | err (error : String)
deriving DecidableEq, Repr

/-- Handler of the login event: trim and bind the display name.
`!username || !username.jsTrim()` holds for an absent name or one that
trims to empty (the empty string trims to itself, so one trim test
covers both cases). -/
def loginHandler (s : ServerState) (conn : String) (username : Option String) :
    LoginRes × ServerState :=
  match username with
  | none => (.err "Username is required.", s)
  | some u =>
    if u.jsTrim = "" then (.err "Username is required.", s)
    else
      let user : User := ⟨conn, u.jsTrim⟩
      (.ok user s.serverRooms, { s with serverUsers := aset s.serverUsers conn user })

/-- Handler of the createRoom event: case-insensitive lookup, create on
miss; on hit answer with the existing room plus an informational error.
In both branches the socket joins the group of that room without leaving
any other group. -/
def createRoomHandler (s : ServerState) (conn : String) (roomName : Option String) :
    CreateRes × List Emit × ServerState :=
  match alookup s.serverUsers conn with
  | none => (.err "User not authenticated.", [], s)
  | some creatingUser =>
    match roomName with
    | none => (.err "Room name is required.", [], s)
    | some rn =>
      if rn.jsTrim = "" then (.err "Room name is required.", [], s)
      else
        let trimmedRoomName := rn.jsTrim
        match s.serverRooms.find? (fun r => decide (r.name.jsToLower = trimmedRoomName.jsToLower)) with
        | some existingRoom =>
          (.conflict existingRoom false "Room already exists. Joining existing room.", [],
            { s with groups := joinGroup s.groups conn existingRoom.id })
        | none =>
          let newRoom : Room := ⟨"room-" ++ toString s.nextId, trimmedRoomName, creatingUser⟩
          (.ok newRoom true, [.roomCreatedAll newRoom],
            { s with
              serverRooms := s.serverRooms ++ [newRoom],
              serverMessagesByRoom := aset s.serverMessagesByRoom newRoom.id [],
              groups := joinGroup s.groups conn newRoom.id,
              nextId := s.nextId + 1 })

/-- Handler of the joinRoom event: leave every socket.io room except the
private one and the target (the `groups` table never holds the private
room, so the model keeps only entries equal to the target), join the
target, and return the backlog `serverMessagesByRoom[roomId] || []`. -/
def joinRoomHandler (s : ServerState) (conn roomId : String) :
    JoinRes × ServerState :=
  match alookup s.serverUsers conn with
  | none => (.err "User not authenticated for joining room.", s)
  | some _user =>
    match s.serverRooms.find? (fun r => decide (r.id = roomId)) with
    | none => (.err "Room not found.", s)
    | some _room =>
      let kept := (groupsOf s conn).filter (fun r => decide (r = roomId))
      let g1 := aset s.groups conn (if roomId ∈ kept then kept else kept ++ [roomId])
      (.ok ((alookup s.serverMessagesByRoom roomId).getD []), { s with groups := g1 })

/-- Shared tail of the sendMessage handler: build the message, push it
onto the log of the room, and emit newMessage to the group of the room. -/
def appendMessage (s : ServerState) (sender : User) (rid t : String) :
    SendRes × List Emit × ServerState :=
  let message : Message := ⟨"msg-" ++ toString s.nextId, rid, sender, t.jsTrim, s.nextId⟩
  let log := (alookup s.serverMessagesByRoom rid).getD []
  (.ok message, [.newMessage (roomMembers s rid) message],
    { s with
      serverMessagesByRoom := aset s.serverMessagesByRoom rid (log ++ [message]),
      nextId := s.nextId + 1 })

/-- Handler of the sendMessage event.  The test
`!roomId || !text || !text.jsTrim()` rejects an absent or empty-string
roomId, and an absent or trim-empty text; a whitespace-only roomId is
truthy and passes this test.  A missing log entry is lazily initialised
when the room exists in the directory, and fails otherwise. -/
def sendMessageHandler (s : ServerState) (conn : String) (roomId text : Option String) :
    SendRes × List Emit × ServerState :=
  match alookup s.serverUsers conn with
  | none => (.err "User not authenticated for sending message.", [], s)
  | some sender =>
    match roomId, text with
    | some rid, some t =>
      if rid = "" ∨ t = "" ∨ t.jsTrim = "" then
        (.err "Room ID and text are required.", [], s)
      else
        match alookup s.serverMessagesByRoom rid with
        | some _ => appendMessage s sender rid t
        | none =>
          if (s.serverRooms.find? (fun r => decide (r.id = rid))).isSome then
            appendMessage
              { s with serverMessagesByRoom := aset s.serverMessagesByRoom rid [] }
              sender rid t
          else
            (.err "Room does not exist.", [], s)
    | _, _ => (.err "Room ID and text are required.", [], s)

/-- Handler of the getMessagesForRoom event: an unauthenticated caller
gets `[]`; otherwise `serverMessagesByRoom[roomId] || []`.  The callback
always receives a plain array, never an error payload, and the shared
state is untouched. -/
def getMessagesForRoomHandler (s : ServerState) (conn roomId : String) : List Message :=
  match alookup s.serverUsers conn with
  | none => []
  | some _ => (alookup s.serverMessagesByRoom roomId).getD []

/-- Handler of the disconnect event: deletes the identity binding;
socket.io itself removes the disconnected socket from every room, which
drops the `groups` entry of the connection. -/
def disconnectHandler (s : ServerState) (conn : String) : ServerState :=
  { s with
    serverUsers := aremove s.serverUsers conn,
    groups := aremove s.groups conn }

/-- One client-visible event at the session gateway. -/
inductive Event
  | login (conn : String) (username : Option String)
  | createRoom (conn : String) (roomName : Option String)
  | joinRoom (conn roomId : String)
  | sendMessage (conn : String) (roomId text : Option String)
  | getMessages (conn roomId : String)
  | disconnect (conn : String)
deriving DecidableEq, Repr

/-- The callback response of one event (disconnect has none). -/
inductive Response
  | login (r : LoginRes)
  | create (r : CreateRes)
  | join (r : JoinRes)
  | send (r : SendRes)
  | messages (ms : List Message)
  | noReply
deriving DecidableEq, Repr

/-- A response that carries an error string in its payload (this includes
the soft createRoom conflict, whose payload has both the room and an
informational error). -/
def Response.hasErrorField : Response → Bool
  | .login (.err _) => true
  | .create (.conflict _ _ _) => true
  | .create (.err _) => true
  | .join (.err _) => true
  | .send (.err _) => true
  | _ => false

/-- A hard failure: an error-only payload with no accompanying result
(the soft createRoom conflict, which returns the existing room, is not a
hard failure). -/
def Response.isHardError : Response → Bool
  | .login (.err _) => true
  | .create (.err _) => true
  | .join (.err _) => true
  | .send (.err _) => true
  | _ => false

/-- Dispatch one event against the shared state, producing the callback
response, the pushed outbound events, and the next state. -/
def step (s : ServerState) (e : Event) : Response × List Emit × ServerState :=
  match e with
  | .login conn username =>
    let r := loginHandler s conn username
    (.login r.1, [], r.2)
  | .createRoom conn roomName =>
    let r := createRoomHandler s conn roomName
    (.create r.1, r.2.1, r.2.2)
  | .joinRoom conn roomId =>
    let r := joinRoomHandler s conn roomId
    (.join r.1, [], r.2)
  | .sendMessage conn roomId text =>
    let r := sendMessageHandler s conn roomId text
    (.send r.1, r.2.1, r.2.2)
  | .getMessages conn roomId =>
    (.messages (getMessagesForRoomHandler s conn roomId), [], s)
  | .disconnect conn =>
    (.noReply, [], disconnectHandler s conn)

/-- The state after one event. -/
def stepState (s : ServerState) (e : Event) : ServerState := (step s e).2.2

/-- Run a sequence of events. -/
def execEvents (s : ServerState) (es : List Event) : ServerState :=
  es.foldl stepState s

/-- The server states reachable from process start. -/
inductive Reachable : ServerState → Prop
  | init : Reachable initialState
  | next {s : ServerState} (e : Event) : Reachable s → Reachable (stepState s e)

/-- Referential integrity of the message store: every log entry is keyed
by the id of an existing room, and every message in the log of a room
carries that same room id. -/
def msgInv (s : ServerState) : Prop :=
  ∀ p ∈ s.serverMessagesByRoom,
    (∃ r, r ∈ s.serverRooms ∧ r.id = p.1) ∧ ∀ m ∈ p.2, m.roomId = p.1

/-- The keys of the message store all name existing rooms (the half of
`msgInv` that the sendMessage NotFound analysis needs). -/
def logKeysHaveRooms (s : ServerState) : Prop :=
  ∀ p ∈ s.serverMessagesByRoom, ∃ r, r ∈ s.serverRooms ∧ r.id = p.1

/-- Run a sequence of createRoom calls (pairs of connection id and raw
room name), collecting every callback response and the final state. -/
def runCreateRoomCalls : ServerState → List (String × String) → List CreateRes × ServerState
  | s, [] => ([], s)
  | s, (c, n) :: rest =>
    let r := createRoomHandler s c (some n)
    let t := runCreateRoomCalls r.2.2 rest
    (r.1 :: t.1, t.2)

/-- Concrete trace: alice logs in and creates two differently named
rooms; used to exhibit double subscription. -/
def sC1 : ServerState := execEvents initialState
  [.login "c1" (some "alice"), .createRoom "c1" (some "alpha"), .createRoom "c1" (some "beta")]

/-- Concrete trace: two users logged in, no rooms yet. -/
def sC2 : ServerState := execEvents initialState
  [.login "c1" (some "alice"), .login "c2" (some "bob")]

/-- Concrete trace: alice creates room g and stays in it, bob joins g,
eve creates (and is grouped into) room h. -/
def sC3 : ServerState := execEvents initialState
  [.login "c1" (some "alice"), .createRoom "c1" (some "g"),
   .login "c2" (some "bob"), .joinRoom "c2" "room-0",
   .login "c3" (some "eve"), .createRoom "c3" (some "h")]

/-- Concrete trace: alice creates room general, then bob logs in. -/
def sC4 : ServerState := execEvents initialState
  [.login "c1" (some "alice"), .createRoom "c1" (some "general"), .login "c2" (some "bob")]

/-- Concrete state: alice logged in, no rooms. -/
def sC5 : ServerState := stepState initialState (.login "c1" (some "alice"))

/-- Concrete state in which room r1 exists in the directory but its
message log was never initialised (the situation the self-healing branch
of sendMessage defends against). -/
def sC6 : ServerState :=
  ⟨[("c1", ⟨"c1", "alice"⟩)], [⟨"r1", "general", ⟨"c1", "alice"⟩⟩], [], [], 0⟩

/-- Concrete trace: alice logs in and creates room general. -/
def sC7 : ServerState := execEvents initialState
  [.login "c1" (some "alice"), .createRoom "c1" (some "general")]

/-- Concrete trace: alice logs in, creates room gen, sends one message. -/
def sC9 : ServerState := execEvents initialState
  [.login "c1" (some "alice"), .createRoom "c1" (some "gen"),
   .sendMessage "c1" (some "room-0") (some "hi")]

theorem alookup_aset_self {α : Type} (l : List (String × α)) (k : String) (v : α) :
    alookup (aset l k v) k = some v := by
  induction l with
  | nil => simp [aset, alookup]
  | cons p rest ih =>
    obtain ⟨k', v'⟩ := p
    by_cases h : k' = k
    · simp [aset, h, alookup]
    · simp [aset, h, alookup, ih]

theorem alookup_aset_ne {α : Type} (l : List (String × α)) (k k' : String) (v : α)
    (h : k' ≠ k) : alookup (aset l k v) k' = alookup l k' := by
  have hne : ¬ (k = k') := fun hh => h hh.symm
  induction l with
  | nil => simp [aset, alookup, hne]
  | cons p rest ih =>
    obtain ⟨k₀, v₀⟩ := p
    by_cases h0 : k₀ = k
    · subst h0
      simp [aset, alookup, hne]
    · simp only [aset, if_neg h0, alookup]
      by_cases h1 : k₀ = k'
      · simp [h1]
      · simp [h1, ih]

theorem mem_aset {α : Type} {l : List (String × α)} {k : String} {v : α}
    {p : String × α} (h : p ∈ aset l k v) : p = (k, v) ∨ p ∈ l := by
  induction l with
  | nil => simpa [aset] using h
  | cons q rest ih =>
    obtain ⟨k₀, v₀⟩ := q
    by_cases h0 : k₀ = k
    · simp only [aset, if_pos h0] at h
      rcases List.mem_cons.mp h with h1 | h1
      · exact Or.inl h1
      · exact Or.inr (List.mem_cons_of_mem _ h1)
    · simp only [aset, if_neg h0] at h
      rcases List.mem_cons.mp h with h1 | h1
      · exact Or.inr (h1 ▸ List.mem_cons_self _ _)
      · rcases ih h1 with h2 | h2
        · exact Or.inl h2
        · exact Or.inr (List.mem_cons_of_mem _ h2)

theorem alookup_mem {α : Type} {l : List (String × α)} {k : String} {v : α}
    (h : alookup l k = some v) : (k, v) ∈ l := by
  induction l with
  | nil => simp [alookup] at h
  | cons q rest ih =>
    obtain ⟨k₀, v₀⟩ := q
    simp only [alookup] at h
    split at h
    · rename_i heq
      subst heq
      simp only [Option.some.injEq] at h
      subst h
      exact List.mem_cons_self _ _
    · exact List.mem_cons_of_mem _ (ih h)

theorem aset_aset {α : Type} (l : List (String × α)) (k : String) (v v' : α) :
    aset (aset l k v) k v' = aset l k v' := by
  induction l with
  | nil => simp [aset]
  | cons q rest ih =>
    obtain ⟨k₀, v₀⟩ := q
    by_cases h0 : k₀ = k
    · simp [aset, h0]
    · simp [aset, h0, ih]

theorem mem_keys_of_alookup {α : Type} {l : List (String × α)} {k : String} {v : α}
    (h : alookup l k = some v) : k ∈ l.map Prod.fst := by
  have := alookup_mem h
  exact List.mem_map.mpr ⟨(k, v), this, rfl⟩

theorem mem_roomMembers {s : ServerState} {rid c : String} :
    c ∈ roomMembers s rid ↔ subscribed s c rid := by
  unfold roomMembers subscribed
  rw [List.mem_filter]
  constructor
  · rintro ⟨-, h2⟩
    exact of_decide_eq_true h2
  · intro h
    refine ⟨?_, decide_eq_true h⟩
    unfold groupsOf at h
    cases hc : alookup s.groups c with
    | none => rw [hc] at h; simp at h
    | some g => exact mem_keys_of_alookup hc

theorem loginHandler_msgs (s : ServerState) (conn : String) (u : Option String) :
    (loginHandler s conn u).2.serverMessagesByRoom = s.serverMessagesByRoom := by
  unfold loginHandler
  repeat first | rfl | split | dsimp only

theorem loginHandler_rooms (s : ServerState) (conn : String) (u : Option String) :
    (loginHandler s conn u).2.serverRooms = s.serverRooms := by
  unfold loginHandler
  repeat first | rfl | split | dsimp only

theorem joinRoomHandler_msgs (s : ServerState) (conn rid : String) :
    (joinRoomHandler s conn rid).2.serverMessagesByRoom = s.serverMessagesByRoom := by
  unfold joinRoomHandler
  split
  · rfl
  · split <;> rfl

theorem joinRoomHandler_rooms (s : ServerState) (conn rid : String) :
    (joinRoomHandler s conn rid).2.serverRooms = s.serverRooms := by
  unfold joinRoomHandler
  split
  · rfl
  · split <;> rfl

theorem loginHandler_spec (s : ServerState) (conn : String) (u : Option String) :
    ((u = none ∨ ∃ nm, u = some nm ∧ nm.jsTrim = "") ∧
      loginHandler s conn u = (.err "Username is required.", s)) ∨
    (∃ nm, u = some nm ∧ nm.jsTrim ≠ "" ∧
      loginHandler s conn u =
        (.ok ⟨conn, nm.jsTrim⟩ s.serverRooms,
         { s with serverUsers := aset s.serverUsers conn ⟨conn, nm.jsTrim⟩ })) := by
  unfold loginHandler
  cases u with
  | none => exact Or.inl ⟨Or.inl rfl, rfl⟩
  | some nm =>
    dsimp only
    by_cases h : nm.jsTrim = ""
    · rw [if_pos h]
      exact Or.inl ⟨Or.inr ⟨nm, rfl, h⟩, rfl⟩
    · rw [if_neg h]
      exact Or.inr ⟨nm, rfl, h, rfl⟩

theorem createRoomHandler_spec (s : ServerState) (conn : String) (n : Option String) :
    (alookup s.serverUsers conn = none ∧
      createRoomHandler s conn n = (.err "User not authenticated.", [], s)) ∨
    ((∃ cu, alookup s.serverUsers conn = some cu) ∧
      (n = none ∨ ∃ rn, n = some rn ∧ rn.jsTrim = "") ∧
      createRoomHandler s conn n = (.err "Room name is required.", [], s)) ∨
    (∃ cu rn ex, alookup s.serverUsers conn = some cu ∧ n = some rn ∧ rn.jsTrim ≠ "" ∧
      s.serverRooms.find? (fun r => decide (r.name.jsToLower = rn.jsTrim.jsToLower)) = some ex ∧
      createRoomHandler s conn n =
        (.conflict ex false "Room already exists. Joining existing room.", [],
         { s with groups := joinGroup s.groups conn ex.id })) ∨
    (∃ cu rn, alookup s.serverUsers conn = some cu ∧ n = some rn ∧ rn.jsTrim ≠ "" ∧
      s.serverRooms.find? (fun r => decide (r.name.jsToLower = rn.jsTrim.jsToLower)) = none ∧
      createRoomHandler s conn n =
        (.ok ⟨"room-" ++ toString s.nextId, rn.jsTrim, cu⟩ true,
         [.roomCreatedAll ⟨"room-" ++ toString s.nextId, rn.jsTrim, cu⟩],
         { s with
            serverRooms := s.serverRooms ++ [⟨"room-" ++ toString s.nextId, rn.jsTrim, cu⟩],
            serverMessagesByRoom := aset s.serverMessagesByRoom ("room-" ++ toString s.nextId) [],
            groups := joinGroup s.groups conn ("room-" ++ toString s.nextId),
            nextId := s.nextId + 1 })) := by
  unfold createRoomHandler
  cases hu : alookup s.serverUsers conn with
  | none => exact Or.inl ⟨rfl, rfl⟩
  | some cu =>
    dsimp only
    cases n with
    | none => exact Or.inr (Or.inl ⟨⟨cu, rfl⟩, Or.inl rfl, rfl⟩)
    | some rn =>
      dsimp only
      by_cases h : rn.jsTrim = ""
      · rw [if_pos h]
        exact Or.inr (Or.inl ⟨⟨cu, rfl⟩, Or.inr ⟨rn, rfl, h⟩, rfl⟩)
      · rw [if_neg h]
        cases hf : s.serverRooms.find? (fun r => decide (r.name.jsToLower = rn.jsTrim.jsToLower)) with
        | some ex =>
          exact Or.inr (Or.inr (Or.inl ⟨cu, rn, ex, rfl, rfl, h, hf, rfl⟩))
        | none =>
          exact Or.inr (Or.inr (Or.inr ⟨cu, rn, rfl, rfl, h, hf, rfl⟩))

theorem joinRoomHandler_spec (s : ServerState) (conn rid : String) :
    (alookup s.serverUsers conn = none ∧
      joinRoomHandler s conn rid = (.err "User not authenticated for joining room.", s)) ∨
    ((∃ u, alookup s.serverUsers conn = some u) ∧
      s.serverRooms.find? (fun r => decide (r.id = rid)) = none ∧
      joinRoomHandler s conn rid = (.err "Room not found.", s)) ∨
    (∃ u room, alookup s.serverUsers conn = some u ∧
      s.serverRooms.find? (fun r => decide (r.id = rid)) = some room ∧
      joinRoomHandler s conn rid =
        (.ok ((alookup s.serverMessagesByRoom rid).getD []),
         { s with groups := (aset s.groups conn (if rid ∈ (groupsOf s conn).filter (fun r => decide (r = rid)) then (groupsOf s conn).filter (fun r => decide (r = rid)) else (groupsOf s conn).filter (fun r => decide (r = rid)) ++ [rid])) })) := by
  unfold joinRoomHandler
  cases hu : alookup s.serverUsers conn with
  | none => exact Or.inl ⟨rfl, rfl⟩
  | some u =>
    cases hf : s.serverRooms.find? (fun r => decide (r.id = rid)) with
    | none => exact Or.inr (Or.inl ⟨⟨u, rfl⟩, rfl, rfl⟩)
    | some room => exact Or.inr (Or.inr ⟨u, room, rfl, rfl, rfl⟩)

theorem sendMessageHandler_spec (s : ServerState) (conn : String) (roomId text : Option String) :
    (alookup s.serverUsers conn = none ∧
      sendMessageHandler s conn roomId text =
        (.err "User not authenticated for sending message.", [], s)) ∨
    ((∃ sender, alookup s.serverUsers conn = some sender) ∧
      (roomId = none ∨ text = none ∨
        ∃ rid t, roomId = some rid ∧ text = some t ∧ (rid = "" ∨ t = "" ∨ t.jsTrim = "")) ∧
      sendMessageHandler s conn roomId text = (.err "Room ID and text are required.", [], s)) ∨
    (∃ sender rid t, alookup s.serverUsers conn = some sender ∧
      roomId = some rid ∧ text = some t ∧ ¬(rid = "" ∨ t = "" ∨ t.jsTrim = "") ∧
      alookup s.serverMessagesByRoom rid = none ∧
      s.serverRooms.find? (fun r => decide (r.id = rid)) = none ∧
      sendMessageHandler s conn roomId text = (.err "Room does not exist.", [], s)) ∨
    (∃ sender rid t log, alookup s.serverUsers conn = some sender ∧
      roomId = some rid ∧ text = some t ∧ ¬(rid = "" ∨ t = "" ∨ t.jsTrim = "") ∧
      alookup s.serverMessagesByRoom rid = some log ∧
      sendMessageHandler s conn roomId text =
        (.ok ⟨"msg-" ++ toString s.nextId, rid, sender, t.jsTrim, s.nextId⟩,
         [.newMessage (roomMembers s rid) ⟨"msg-" ++ toString s.nextId, rid, sender, t.jsTrim, s.nextId⟩],
         { s with
            serverMessagesByRoom := (aset s.serverMessagesByRoom rid (log ++ [⟨"msg-" ++ toString s.nextId, rid, sender, t.jsTrim, s.nextId⟩])),
            nextId := s.nextId + 1 })) ∨
    (∃ sender rid t room, alookup s.serverUsers conn = some sender ∧
      roomId = some rid ∧ text = some t ∧ ¬(rid = "" ∨ t = "" ∨ t.jsTrim = "") ∧
      alookup s.serverMessagesByRoom rid = none ∧
      s.serverRooms.find? (fun r => decide (r.id = rid)) = some room ∧
      sendMessageHandler s conn roomId text =
        (.ok ⟨"msg-" ++ toString s.nextId, rid, sender, t.jsTrim, s.nextId⟩,
         [.newMessage (roomMembers s rid) ⟨"msg-" ++ toString s.nextId, rid, sender, t.jsTrim, s.nextId⟩],
         { s with
            serverMessagesByRoom := (aset s.serverMessagesByRoom rid [⟨"msg-" ++ toString s.nextId, rid, sender, t.jsTrim, s.nextId⟩]),
            nextId := s.nextId + 1 })) := by
  unfold sendMessageHandler
  cases hu : alookup s.serverUsers conn with
  | none => exact Or.inl ⟨rfl, rfl⟩
  | some sender =>
    dsimp only
    cases roomId with
    | none => exact Or.inr (Or.inl ⟨⟨sender, rfl⟩, Or.inl rfl, rfl⟩)
    | some rid =>
      cases text with
      | none => exact Or.inr (Or.inl ⟨⟨sender, rfl⟩, Or.inr (Or.inl rfl), rfl⟩)
      | some t =>
        dsimp only
        by_cases hcond : rid = "" ∨ t = "" ∨ t.jsTrim = ""
        · rw [if_pos hcond]
          exact Or.inr (Or.inl ⟨⟨sender, rfl⟩, Or.inr (Or.inr ⟨rid, t, rfl, rfl, hcond⟩), rfl⟩)
        · rw [if_neg hcond]
          cases hm : alookup s.serverMessagesByRoom rid with
          | some log =>
            refine Or.inr (Or.inr (Or.inr (Or.inl ⟨sender, rid, t, log, rfl, rfl, rfl, hcond, hm, ?_⟩)))
            unfold appendMessage
            rw [hm]
            rfl
          | none =>
            cases hf : s.serverRooms.find? (fun r => decide (r.id = rid)) with
            | none =>
              exact Or.inr (Or.inr (Or.inl ⟨sender, rid, t, rfl, rfl, rfl, hcond, hm, hf, rfl⟩))
            | some room =>
              refine Or.inr (Or.inr (Or.inr (Or.inr ⟨sender, rid, t, room, rfl, rfl, rfl, hcond, hm, hf, ?_⟩)))
              dsimp only [Option.isSome]
              rw [if_pos rfl]
              unfold appendMessage
              rw [alookup_aset_self]
              dsimp only
              rw [aset_aset]
              rfl

/-- C8: login trims the given name and fails with InvalidInput (error
string "Username is required.") when the name is absent or trims to
empty, binding nothing (state unchanged); on success it binds the
connection id to the identity made of the connection id and the trimmed
name, returns that identity together with the current room directory,
and the binding overwrites any previous one for the same connection (no
uniqueness constraint on names). -/
theorem login_contract (s : ServerState) (conn : String) (username : Option String) :
    ((username = none ∨ ∃ nm, username = some nm ∧ nm.jsTrim = "") →
      loginHandler s conn username = (.err "Username is required.", s)) ∧
    (∀ nm, username = some nm → nm.jsTrim ≠ "" →
      loginHandler s conn username =
        (.ok ⟨conn, nm.jsTrim⟩ s.serverRooms,
         { s with serverUsers := aset s.serverUsers conn ⟨conn, nm.jsTrim⟩ }) ∧
      alookup (loginHandler s conn username).2.serverUsers conn = some ⟨conn, nm.jsTrim⟩) := by
  constructor
  · intro h
    rcases loginHandler_spec s conn username with ⟨-, heq⟩ | ⟨nm, hnm, hne, heq⟩
    · exact heq
    · exfalso
      rcases h with h | ⟨nm', hnm', he'⟩
      · rw [h] at hnm
        cases hnm
      · rw [hnm'] at hnm
        cases hnm
        exact hne he'
  · intro nm hn hne
    rcases loginHandler_spec s conn username with ⟨hc, heq⟩ | ⟨nm', hnm', hne', heq⟩
    · exfalso
      rcases hc with h | ⟨nm2, hnm2, he2⟩
      · rw [hn] at h
        cases h
      · rw [hn] at hnm2
        cases hnm2
        exact hne he2
    · rw [hn] at hnm'
      cases hnm'
      refine ⟨heq, ?_⟩
      rw [heq]
      exact alookup_aset_self s.serverUsers conn ⟨conn, nm.jsTrim⟩

/-- C10: the undocumented getMessagesForRoom request never returns an
error and never changes state: a connection with no live identity gets
the empty list, an authenticated connection gets the full log of the
given room, and an unknown or uninitialised roomId yields the empty
list, indistinguishable from a room with an empty log. -/
theorem getMessages_never_errors (s : ServerState) (conn rid : String) :
    (step s (.getMessages conn rid)).1 = .messages (getMessagesForRoomHandler s conn rid) ∧
    (step s (.getMessages conn rid)).1.hasErrorField = false ∧
    (step s (.getMessages conn rid)).2.2 = s ∧
    (alookup s.serverUsers conn = none → getMessagesForRoomHandler s conn rid = []) ∧
    (∀ u, alookup s.serverUsers conn = some u →
      getMessagesForRoomHandler s conn rid = (alookup s.serverMessagesByRoom rid).getD []) ∧
    (alookup s.serverMessagesByRoom rid = none → getMessagesForRoomHandler s conn rid = []) ∧
    (∀ u, alookup s.serverUsers conn = some u → alookup s.serverMessagesByRoom rid = some [] →
      getMessagesForRoomHandler s conn rid = []) := by
  refine ⟨rfl, rfl, rfl, ?_, ?_, ?_, ?_⟩
  · intro h
    unfold getMessagesForRoomHandler
    rw [h]
  · intro u h
    unfold getMessagesForRoomHandler
    rw [h]
  · intro h
    unfold getMessagesForRoomHandler
    cases hu : alookup s.serverUsers conn with
    | none => rfl
    | some u => rw [h]; rfl
  · intro u hu h
    unfold getMessagesForRoomHandler
    rw [hu, h]
    rfl

/-- C5 (amended): for an authenticated connection, sendMessage fails
with InvalidInput (error string "Room ID and text are required.")
exactly when the text is absent or trims to empty, or the roomId is
absent or the empty string; a whitespace-only non-empty roomId passes
the truthiness test and is not an InvalidInput failure (see the
counterexample: it falls through to NotFound).  Every error response
leaves the whole state, in particular every per-room log, unchanged. -/
theorem sendMessage_invalid_input (s : ServerState) (conn : String) (sender : User)
    (roomId text : Option String)
    (hauth : alookup s.serverUsers conn = some sender) :
    ((sendMessageHandler s conn roomId text).1 = .err "Room ID and text are required." ↔
      (roomId = none ∨ roomId = some "" ∨ text = none ∨
        ∃ t, text = some t ∧ t.jsTrim = "")) ∧
    (∀ e, (sendMessageHandler s conn roomId text).1 = .err e →
      (sendMessageHandler s conn roomId text).2.2 = s) := by
  have hforward : (roomId = none ∨ text = none ∨
      ∃ rid t, roomId = some rid ∧ text = some t ∧ (rid = "" ∨ t = "" ∨ t.jsTrim = "")) →
      (roomId = none ∨ roomId = some "" ∨ text = none ∨
        ∃ t, text = some t ∧ t.jsTrim = "") := by
    intro hcond
    rcases hcond with h | h | ⟨rid, t, hrid, ht, hc⟩
    · exact Or.inl h
    · exact Or.inr (Or.inr (Or.inl h))
    · rcases hc with hc | hc | hc
      · subst hc
        exact Or.inr (Or.inl hrid)
      · subst hc
        exact Or.inr (Or.inr (Or.inr ⟨"", ht, by decide⟩))
      · exact Or.inr (Or.inr (Or.inr ⟨t, ht, hc⟩))
  rcases sendMessageHandler_spec s conn roomId text with
    ⟨hu, heq⟩ |
    ⟨-, hcond, heq⟩ |
    ⟨sender', rid, t, hu, hrid, ht, hcond, hm, hf, heq⟩ |
    ⟨sender', rid, t, log, hu, hrid, ht, hcond, hm, heq⟩ |
    ⟨sender', rid, t, room, hu, hrid, ht, hcond, hm, hf, heq⟩
  · rw [hauth] at hu
    cases hu
  · rw [heq]
    exact ⟨⟨fun _ => hforward hcond, fun _ => rfl⟩, fun e _ => rfl⟩
  · rw [heq]
    refine ⟨⟨fun h => by simp at h, fun h => ?_⟩, fun e _ => rfl⟩
    exfalso
    rcases h with h | h | h | ⟨t', ht', hc⟩
    · rw [h] at hrid
      cases hrid
    · rw [h] at hrid
      cases hrid
      exact hcond (Or.inl rfl)
    · rw [h] at ht
      cases ht
    · rw [ht'] at ht
      cases ht
      exact hcond (Or.inr (Or.inr hc))
  · rw [heq]
    refine ⟨⟨fun h => by simp at h, fun h => ?_⟩, fun e he => by simp at he⟩
    exfalso
    rcases h with h | h | h | ⟨t', ht', hc⟩
    · rw [h] at hrid
      cases hrid
    · rw [h] at hrid
      cases hrid
      exact hcond (Or.inl rfl)
    · rw [h] at ht
      cases ht
    · rw [ht'] at ht
      cases ht
      exact hcond (Or.inr (Or.inr hc))
  · rw [heq]
    refine ⟨⟨fun h => by simp at h, fun h => ?_⟩, fun e he => by simp at he⟩
    exfalso
    rcases h with h | h | h | ⟨t', ht', hc⟩
    · rw [h] at hrid
      cases hrid
    · rw [h] at hrid
      cases hrid
      exact hcond (Or.inl rfl)
    · rw [h] at ht
      cases ht
    · rw [ht'] at ht
      cases ht
      exact hcond (Or.inr (Or.inr hc))



/-- C3: a successful sendMessage to room rid emits exactly one
newMessage event carrying the appended message, whose recipient set is
exactly the connections subscribed to rid at send time: every connection
in the group of rid (including the sender when subscribed) receives it,
and no connection not subscribed to rid does. -/
theorem sendMessage_broadcast (s : ServerState) (conn rid t : String) (m : Message)
    (em : List Emit) (s' : ServerState)
    (h : sendMessageHandler s conn (some rid) (some t) = (.ok m, em, s')) :
    m.roomId = rid ∧ em = [.newMessage (roomMembers s rid) m] ∧
    ∀ c, c ∈ roomMembers s rid ↔ subscribed s c rid := by
  rcases sendMessageHandler_spec s conn (some rid) (some t) with
    ⟨hu, heq⟩ |
    ⟨-, -, heq⟩ |
    ⟨sender', rid', t', hu, hrid, ht, hcond, hm, hf, heq⟩ |
    ⟨sender', rid', t', log, hu, hrid, ht, hcond, hm, heq⟩ |
    ⟨sender', rid', t', room, hu, hrid, ht, hcond, hm, hf, heq⟩
  · rw [heq] at h
    simp at h
  · rw [heq] at h
    simp at h
  · rw [heq] at h
    simp at h
  · cases hrid
    cases ht
    rw [heq] at h
    rw [Prod.mk.injEq, Prod.mk.injEq] at h
    obtain ⟨h1, h2, h3⟩ := h
    cases h1
    refine ⟨rfl, h2.symm, fun c => mem_roomMembers⟩
  · cases hrid
    cases ht
    rw [heq] at h
    rw [Prod.mk.injEq, Prod.mk.injEq] at h
    obtain ⟨h1, h2, h3⟩ := h
    cases h1
    refine ⟨rfl, h2.symm, fun c => mem_roomMembers⟩

/-- C1 (amended): every successful joinRoom leaves the connection
subscribed to exactly the target room (the implicit private group keyed
by the connection id is not part of the groups table), so joinRoom
enforces the single-membership invariant; createRoom does not (see the
counterexample). -/
theorem joinRoom_single_membership (s : ServerState) (conn rid : String)
    (msgs : List Message) (s' : ServerState)
    (h : joinRoomHandler s conn rid = (.ok msgs, s')) :
    ∀ r, subscribed s' conn r ↔ r = rid := by
  rcases joinRoomHandler_spec s conn rid with
    ⟨hu, heq⟩ | ⟨-, hf, heq⟩ | ⟨u, room, hu, hf, heq⟩
  · rw [heq] at h
    simp at h
  · rw [heq] at h
    simp at h
  · rw [heq] at h
    rw [Prod.mk.injEq] at h
    obtain ⟨h1, h2⟩ := h
    intro r
    rw [← h2]
    unfold subscribed groupsOf
    dsimp only
    rw [alookup_aset_self, Option.getD_some]
    split
    · rename_i hmem
      constructor
      · intro hr
        rcases List.mem_filter.mp hr with ⟨-, hd⟩
        exact of_decide_eq_true hd
      · intro hr
        subst hr
        exact hmem
    · rename_i hmem
      constructor
      · intro hr
        rcases List.mem_append.mp hr with hr | hr
        · rcases List.mem_filter.mp hr with ⟨-, hd⟩
          exact of_decide_eq_true hd
        · simpa using hr
      · intro hr
        subst hr
        exact List.mem_append.mpr (Or.inr (List.mem_singleton.mpr rfl))

/-- C4 (amended): any action whose response is a hard failure (an
error-only payload with no accompanying result) leaves the entire shared
server state unchanged; in particular sendMessage with whitespace-only
text appends nothing.  The soft-conflict createRoom response, which
carries an error string alongside the existing room, is excluded: it
additionally subscribes the caller to the group of that room (see the
counterexample). -/
theorem hard_error_state_unchanged (s : ServerState) (e : Event)
    (h : (step s e).1.isHardError = true) : (step s e).2.2 = s := by
  cases e with
  | login conn u =>
    rcases loginHandler_spec s conn u with ⟨-, heq⟩ | ⟨nm, hnm, hne, heq⟩
    · dsimp only [step]
      rw [heq]
    · dsimp only [step] at h
      rw [heq] at h
      simp [Response.isHardError] at h
  | createRoom conn n =>
    rcases createRoomHandler_spec s conn n with
      ⟨-, heq⟩ | ⟨-, -, heq⟩ | ⟨cu, rn, ex, -, -, -, -, heq⟩ | ⟨cu, rn, -, -, -, -, heq⟩
    · dsimp only [step]
      rw [heq]
    · dsimp only [step]
      rw [heq]
    · dsimp only [step] at h
      rw [heq] at h
      simp [Response.isHardError] at h
    · dsimp only [step] at h
      rw [heq] at h
      simp [Response.isHardError] at h
  | joinRoom conn rid =>
    rcases joinRoomHandler_spec s conn rid with
      ⟨-, heq⟩ | ⟨-, -, heq⟩ | ⟨u, room, -, -, heq⟩
    · dsimp only [step]
      rw [heq]
    · dsimp only [step]
      rw [heq]
    · dsimp only [step] at h
      rw [heq] at h
      simp [Response.isHardError] at h
  | sendMessage conn roomId text =>
    rcases sendMessageHandler_spec s conn roomId text with
      ⟨-, heq⟩ | ⟨-, -, heq⟩ | ⟨sd, rid, t, -, -, -, -, -, -, heq⟩ |
      ⟨sd, rid, t, log, -, -, -, -, -, heq⟩ | ⟨sd, rid, t, room, -, -, -, -, -, -, heq⟩
    · dsimp only [step]
      rw [heq]
    · dsimp only [step]
      rw [heq]
    · dsimp only [step]
      rw [heq]
    · dsimp only [step] at h
      rw [heq] at h
      simp [Response.isHardError] at h
    · dsimp only [step] at h
      rw [heq] at h
      simp [Response.isHardError] at h
  | getMessages conn rid =>
    simp [step, Response.isHardError] at h
  | disconnect conn =>
    simp [step, Response.isHardError] at h

/-- C6: for an authenticated connection sending non-blank text to a
non-blank roomId, in any state whose log keys all name existing rooms
(an invariant of every reachable state), the call fails with NotFound
(error string "Room does not exist.") exactly when the roomId names no
room in the directory; and when the room exists but its log was never
initialised, the log is lazily created and the append succeeds, leaving
the log holding exactly the new message. -/
theorem sendMessage_notfound_lazyinit (s : ServerState) (conn : String) (sender : User)
    (rid t : String)
    (hinv : logKeysHaveRooms s)
    (hauth : alookup s.serverUsers conn = some sender)
    (hrid : rid.jsTrim ≠ "") (ht : t.jsTrim ≠ "") :
    ((sendMessageHandler s conn (some rid) (some t)).1 = .err "Room does not exist." ↔
      (∀ r ∈ s.serverRooms, r.id ≠ rid)) ∧
    (∀ room, room ∈ s.serverRooms → room.id = rid →
      alookup s.serverMessagesByRoom rid = none →
      ∃ m, (sendMessageHandler s conn (some rid) (some t)).1 = .ok m ∧
        alookup (sendMessageHandler s conn (some rid) (some t)).2.2.serverMessagesByRoom rid
          = some [m]) := by
  have hridne : rid ≠ "" := by
    intro hh
    subst hh
    exact hrid (by decide)
  have htne : t ≠ "" := by
    intro hh
    subst hh
    exact ht (by decide)
  rcases sendMessageHandler_spec s conn (some rid) (some t) with
    ⟨hu, heq⟩ |
    ⟨-, hcond, heq⟩ |
    ⟨sender', rid', t', hu, hrid', ht', hcond, hm, hf, heq⟩ |
    ⟨sender', rid', t', log, hu, hrid', ht', hcond, hm, heq⟩ |
    ⟨sender', rid', t', room, hu, hrid', ht', hcond, hm, hf, heq⟩
  · rw [hauth] at hu
    cases hu
  · exfalso
    rcases hcond with h | h | ⟨rid', t', hrid', ht', hc⟩
    · cases h
    · cases h
    · cases hrid'
      cases ht'
      rcases hc with hc | hc | hc
      · exact hridne hc
      · exact htne hc
      · exact ht hc
  · cases hrid'
    cases ht'
    rw [heq]
    refine ⟨⟨fun _ => ?_, fun _ => rfl⟩, ?_⟩
    · intro r hr hid
      have hq := List.find?_eq_none.mp hf r hr
      rw [decide_eq_true_eq] at hq
      exact hq hid
    · intro room hroom hid hnone
      exfalso
      have hq := List.find?_eq_none.mp hf room hroom
      rw [decide_eq_true_eq] at hq
      exact hq hid
  · cases hrid'
    cases ht'
    rw [heq]
    constructor
    · refine ⟨fun h => by simp at h, fun h => ?_⟩
      exfalso
      rcases hinv (rid, log) (alookup_mem hm) with ⟨r, hr, hid⟩
      exact h r hr hid
    · intro room hroom hid hnone
      rw [hm] at hnone
      cases hnone
  · cases hrid'
    cases ht'
    rw [heq]
    constructor
    · refine ⟨fun h => by simp at h, fun h => ?_⟩
      exfalso
      have hmem := List.mem_of_find?_eq_some hf
      have hp := List.find?_some hf
      rw [decide_eq_true_eq] at hp
      exact h room hmem hp
    · intro room' hroom' hid hnone
      refine ⟨⟨"msg-" ++ toString s.nextId, rid, sender', t.jsTrim, s.nextId⟩, rfl, ?_⟩
      dsimp only
      exact alookup_aset_self s.serverMessagesByRoom rid _

theorem sendMessage_ok_log (s : ServerState) (conn rid t : String) (m : Message)
    (em : List Emit) (s₁ : ServerState)
    (h : sendMessageHandler s conn (some rid) (some t) = (.ok m, em, s₁)) :
    ∃ log, alookup s₁.serverMessagesByRoom rid = some (log ++ [m]) ∧
      m.text = t.jsTrim ∧ alookup s.serverUsers conn = some m.sender := by
  rcases sendMessageHandler_spec s conn (some rid) (some t) with
    ⟨hu, heq⟩ |
    ⟨-, -, heq⟩ |
    ⟨sender', rid', t', hu, hrid', ht', hcond, hm, hf, heq⟩ |
    ⟨sender', rid', t', log, hu, hrid', ht', hcond, hm, heq⟩ |
    ⟨sender', rid', t', room, hu, hrid', ht', hcond, hm, hf, heq⟩
  · rw [heq] at h
    simp at h
  · rw [heq] at h
    simp at h
  · rw [heq] at h
    simp at h
  · cases hrid'
    cases ht'
    rw [heq] at h
    rw [Prod.mk.injEq, Prod.mk.injEq] at h
    obtain ⟨h1, h2, h3⟩ := h
    cases h1
    refine ⟨log, ?_, rfl, hu⟩
    rw [← h3]
    dsimp only
    exact alookup_aset_self s.serverMessagesByRoom rid _
  · cases hrid'
    cases ht'
    rw [heq] at h
    rw [Prod.mk.injEq, Prod.mk.injEq] at h
    obtain ⟨h1, h2, h3⟩ := h
    cases h1
    refine ⟨[], ?_, rfl, hu⟩
    rw [← h3]
    dsimp only
    exact alookup_aset_self s.serverMessagesByRoom rid _

/-- C7: after a successful sendMessage of text t to room rid by a
connection whose identity is sender, a subsequent login by any (possibly
different) connection followed by a successful joinRoom of rid returns a
backlog whose last element is the sent message, whose text is the
trimmed t and whose sender name is the name of sender. -/
theorem sendMessage_roundtrip (s : ServerState) (conn : String) (sender : User)
    (rid t : String) (m : Message) (em : List Emit) (s₁ : ServerState)
    (conn2 : String) (nm : Option String) (res2 : LoginRes) (s₂ : ServerState)
    (msgs : List Message) (s₃ : ServerState)
    (hauth : alookup s.serverUsers conn = some sender)
    (hsend : sendMessageHandler s conn (some rid) (some t) = (.ok m, em, s₁))
    (hlogin : loginHandler s₁ conn2 nm = (res2, s₂))
    (hjoin : joinRoomHandler s₂ conn2 rid = (.ok msgs, s₃)) :
    msgs.getLast? = some m ∧ m.text = t.jsTrim ∧ m.sender.name = sender.name := by
  obtain ⟨log, hlog, htext, hsender⟩ := sendMessage_ok_log s conn rid t m em s₁ hsend
  have hmsgs₂ : s₂.serverMessagesByRoom = s₁.serverMessagesByRoom := by
    have h2 := loginHandler_msgs s₁ conn2 nm
    rw [hlogin] at h2
    exact h2
  rcases joinRoomHandler_spec s₂ conn2 rid with
    ⟨hu, heq⟩ | ⟨-, hf, heq⟩ | ⟨u, room, hu, hf, heq⟩
  · rw [heq] at hjoin
    simp at hjoin
  · rw [heq] at hjoin
    simp at hjoin
  · rw [heq] at hjoin
    rw [Prod.mk.injEq] at hjoin
    obtain ⟨h1, h2⟩ := hjoin
    have hmsgs : msgs = log ++ [m] := by
      have := h1.symm
      rw [JoinRes.ok.injEq] at this
      rw [this, hmsgs₂, hlog]
      rfl
    refine ⟨?_, htext, ?_⟩
    · rw [hmsgs]
      exact List.getLast?_concat log
    · rw [hauth] at hsender
      cases hsender
      rfl

theorem disconnectHandler_msgs (s : ServerState) (conn : String) :
    (disconnectHandler s conn).serverMessagesByRoom = s.serverMessagesByRoom := rfl

theorem disconnectHandler_rooms (s : ServerState) (conn : String) :
    (disconnectHandler s conn).serverRooms = s.serverRooms := rfl

theorem msgInv_transport {s s' : ServerState}
    (hm : s'.serverMessagesByRoom = s.serverMessagesByRoom)
    (hr : s'.serverRooms = s.serverRooms) (h : msgInv s) : msgInv s' := by
  intro p hp
  rw [hm] at hp
  rcases h p hp with ⟨⟨r, hrm, hid⟩, hall⟩
  exact ⟨⟨r, by rw [hr]; exact hrm, hid⟩, hall⟩

theorem msgInv_initial : msgInv initialState := by
  intro p hp
  cases hp

theorem msgInv_step (s : ServerState) (e : Event) (h : msgInv s) : msgInv (stepState s e) := by
  cases e with
  | login conn u =>
    exact msgInv_transport (loginHandler_msgs s conn u) (loginHandler_rooms s conn u) h
  | joinRoom conn rid =>
    exact msgInv_transport (joinRoomHandler_msgs s conn rid) (joinRoomHandler_rooms s conn rid) h
  | getMessages conn rid =>
    exact msgInv_transport rfl rfl h
  | disconnect conn =>
    exact msgInv_transport (disconnectHandler_msgs s conn) (disconnectHandler_rooms s conn) h
  | createRoom conn n =>
    rcases createRoomHandler_spec s conn n with
      ⟨-, heq⟩ | ⟨-, -, heq⟩ | ⟨cu, rn, ex, -, -, -, -, heq⟩ | ⟨cu, rn, -, -, -, -, heq⟩
    · refine msgInv_transport ?_ ?_ h
      all_goals
        dsimp only [stepState, step]
        rw [heq]
    · refine msgInv_transport ?_ ?_ h
      all_goals
        dsimp only [stepState, step]
        rw [heq]
    · refine msgInv_transport ?_ ?_ h
      all_goals
        dsimp only [stepState, step]
        rw [heq]
    · intro p hp
      dsimp only [stepState, step] at hp ⊢
      rw [heq] at hp ⊢
      dsimp only at hp ⊢
      rcases mem_aset hp with hpe | hpold
      · subst hpe
        refine ⟨⟨⟨"room-" ++ toString s.nextId, rn.jsTrim, cu⟩, ?_, rfl⟩, ?_⟩
        · exact List.mem_append.mpr (Or.inr (List.mem_singleton.mpr rfl))
        · intro m hm
          cases hm
      · rcases h p hpold with ⟨⟨r, hrm, hid⟩, hall⟩
        exact ⟨⟨r, List.mem_append.mpr (Or.inl hrm), hid⟩, hall⟩
  | sendMessage conn roomId text =>
    rcases sendMessageHandler_spec s conn roomId text with
      ⟨-, heq⟩ | ⟨-, -, heq⟩ | ⟨sd, rid, t, -, -, -, -, -, -, heq⟩ |
      ⟨sd, rid, t, log, -, -, -, -, hm, heq⟩ | ⟨sd, rid, t, room, -, -, -, -, -, hf, heq⟩
    · refine msgInv_transport ?_ ?_ h
      all_goals
        dsimp only [stepState, step]
        rw [heq]
    · refine msgInv_transport ?_ ?_ h
      all_goals
        dsimp only [stepState, step]
        rw [heq]
    · refine msgInv_transport ?_ ?_ h
      all_goals
        dsimp only [stepState, step]
        rw [heq]
    · intro p hp
      dsimp only [stepState, step] at hp ⊢
      rw [heq] at hp ⊢
      dsimp only at hp ⊢
      rcases mem_aset hp with hpe | hpold
      · subst hpe
        rcases h (rid, log) (alookup_mem hm) with ⟨⟨r, hrm, hid⟩, hall⟩
        refine ⟨⟨r, hrm, hid⟩, ?_⟩
        intro m hmm
        rcases List.mem_append.mp hmm with hmm | hmm
        · exact hall m hmm
        · rw [List.mem_singleton.mp hmm]
      · exact h p hpold
    · intro p hp
      dsimp only [stepState, step] at hp ⊢
      rw [heq] at hp ⊢
      dsimp only at hp ⊢
      rcases mem_aset hp with hpe | hpold
      · subst hpe
        have hmem := List.mem_of_find?_eq_some hf
        have hp2 := List.find?_some hf
        rw [decide_eq_true_eq] at hp2
        refine ⟨⟨room, hmem, hp2⟩, ?_⟩
        intro m hmm
        rw [List.mem_singleton.mp hmm]
      · exact h p hpold

theorem msgInv_reachable (s : ServerState) (h : Reachable s) : msgInv s := by
  induction h with
  | init => exact msgInv_initial
  | next e hs ih => exact msgInv_step _ e ih

theorem reachable_execEvents : ∀ (es : List Event) (s : ServerState),
    Reachable s → Reachable (execEvents s es)
  | [], _, h => h
  | e :: rest, s, h => reachable_execEvents rest (stepState s e) (.next e h)

/-- C9: referential integrity: in every reachable server state, every
message stored in any per-room log carries a roomId equal to the id of
some room present in the directory; every operation preserves this. -/
theorem message_room_integrity (s : ServerState) (h : Reachable s) :
    ∀ p ∈ s.serverMessagesByRoom, ∀ m ∈ p.2,
      ∃ r, r ∈ s.serverRooms ∧ r.id = m.roomId := by
  intro p hp m hm
  rcases msgInv_reachable s h p hp with ⟨⟨r, hrm, hid⟩, hall⟩
  refine ⟨r, hrm, ?_⟩
  rw [hall m hm]
  exact hid

theorem find?_append_singleton {α : Type} (p : α → Bool) (base : List α) (a : α)
    (hbase : ∀ x ∈ base, p x = false) (ha : p a = true) :
    (base ++ [a]).find? p = some a := by
  induction base with
  | nil =>
    simp [List.find?, ha]
  | cons x xs ih =>
    have hx := hbase x (List.mem_cons_self _ _)
    rw [List.cons_append]
    simp only [List.find?, hx]
    exact ih (fun y hy => hbase y (List.mem_cons_of_mem _ hy))

theorem runCreate_conflicts (key : String) (room : Room) (hkey : room.name.jsToLower = key)
    (base : List Room) (hbase : ∀ r ∈ base, r.name.jsToLower ≠ key) :
    ∀ (rest : List (String × String)) (st : ServerState),
      st.serverRooms = base ++ [room] →
      (∀ p ∈ rest, (alookup st.serverUsers p.1).isSome = true) →
      (∀ p ∈ rest, p.2.jsTrim ≠ "" ∧ p.2.jsTrim.jsToLower = key) →
      (runCreateRoomCalls st rest).2.serverRooms = base ++ [room] ∧
      (runCreateRoomCalls st rest).1 =
        rest.map (fun _ => CreateRes.conflict room false "Room already exists. Joining existing room.") := by
  intro rest
  induction rest with
  | nil =>
    intro st hrooms _ _
    exact ⟨hrooms, rfl⟩
  | cons q rest ih =>
    obtain ⟨c, n⟩ := q
    intro st hrooms hauth hname
    obtain ⟨u, hu⟩ := Option.isSome_iff_exists.mp (hauth (c, n) (List.mem_cons_self _ _))
    obtain ⟨hne, hkeyn⟩ := hname (c, n) (List.mem_cons_self _ _)
    have hfind : st.serverRooms.find? (fun r => decide (r.name.jsToLower = n.jsTrim.jsToLower)) = some room := by
      rw [hrooms]
      apply find?_append_singleton
      · intro x hx
        rw [decide_eq_false_iff_not, hkeyn]
        exact hbase x hx
      · rw [decide_eq_true_eq, hkeyn, hkey]
    have hcall : createRoomHandler st c (some n) =
        (.conflict room false "Room already exists. Joining existing room.", [],
         { st with groups := joinGroup st.groups c room.id }) := by
      unfold createRoomHandler
      rw [hu]
      dsimp only
      rw [if_neg hne, hfind]
    have hrec := ih { st with groups := joinGroup st.groups c room.id }
      hrooms
      (fun p hp => hauth p (List.mem_cons_of_mem _ hp))
      (fun p hp => hname p (List.mem_cons_of_mem _ hp))
    constructor
    · dsimp only [runCreateRoomCalls]
      rw [hcall]
      exact hrec.1
    · dsimp only [runCreateRoomCalls]
      rw [hcall]
      dsimp only
      rw [hrec.2, List.map_cons]

/-- C2: for every non-empty sequence of createRoom calls by
authenticated connections whose trimmed names all share one lowercase
form (differ only in letter case), starting from a state with no room of
that lowercase name, exactly one room is created and appended to the
directory; the first call returns it with isNew true and every later
call returns the conflict payload carrying that same room with isNew
false. -/
theorem createRoom_caseInsensitive_once (s : ServerState) (key c₀ n₀ : String)
    (rest : List (String × String))
    (hauth : ∀ p ∈ (c₀, n₀) :: rest, (alookup s.serverUsers p.1).isSome = true)
    (hname : ∀ p ∈ (c₀, n₀) :: rest, p.2.jsTrim ≠ "" ∧ p.2.jsTrim.jsToLower = key)
    (hfresh : ∀ r ∈ s.serverRooms, r.name.jsToLower ≠ key) :
    ∃ room : Room,
      (runCreateRoomCalls s ((c₀, n₀) :: rest)).2.serverRooms = s.serverRooms ++ [room] ∧
      (runCreateRoomCalls s ((c₀, n₀) :: rest)).1 =
        CreateRes.ok room true ::
          rest.map (fun _ => CreateRes.conflict room false "Room already exists. Joining existing room.") := by
  obtain ⟨u, hu⟩ := Option.isSome_iff_exists.mp (hauth (c₀, n₀) (List.mem_cons_self _ _))
  obtain ⟨hne, hkey⟩ := hname (c₀, n₀) (List.mem_cons_self _ _)
  have hfind : s.serverRooms.find? (fun r => decide (r.name.jsToLower = n₀.jsTrim.jsToLower)) = none := by
    rw [List.find?_eq_none]
    intro x hx
    rw [decide_eq_true_eq, hkey]
    exact hfresh x hx
  have hcall : createRoomHandler s c₀ (some n₀) =
      (.ok ⟨"room-" ++ toString s.nextId, n₀.jsTrim, u⟩ true,
       [.roomCreatedAll ⟨"room-" ++ toString s.nextId, n₀.jsTrim, u⟩],
       { s with
          serverRooms := s.serverRooms ++ [⟨"room-" ++ toString s.nextId, n₀.jsTrim, u⟩],
          serverMessagesByRoom := aset s.serverMessagesByRoom ("room-" ++ toString s.nextId) [],
          groups := joinGroup s.groups c₀ ("room-" ++ toString s.nextId),
          nextId := s.nextId + 1 }) := by
    unfold createRoomHandler
    rw [hu]
    dsimp only
    rw [if_neg hne, hfind]
  have hrec := runCreate_conflicts key ⟨"room-" ++ toString s.nextId, n₀.jsTrim, u⟩ hkey
    s.serverRooms hfresh rest
    { s with
        serverRooms := s.serverRooms ++ [⟨"room-" ++ toString s.nextId, n₀.jsTrim, u⟩],
        serverMessagesByRoom := aset s.serverMessagesByRoom ("room-" ++ toString s.nextId) [],
        groups := joinGroup s.groups c₀ ("room-" ++ toString s.nextId),
        nextId := s.nextId + 1 }
    rfl
    (fun p hp => hauth p (List.mem_cons_of_mem _ hp))
    (fun p hp => hname p (List.mem_cons_of_mem _ hp))
  refine ⟨⟨"room-" ++ toString s.nextId, n₀.jsTrim, u⟩, ?_, ?_⟩
  · dsimp only [runCreateRoomCalls]
    rw [hcall]
    exact hrec.1
  · dsimp only [runCreateRoomCalls]
    rw [hcall]
    dsimp only
    rw [hrec.2]


/-- Witness for C8 at concrete inputs. -/
theorem login_contract_witness :
    loginHandler initialState "c1" (some "   ") = (.err "Username is required.", initialState) ∧
    alookup (loginHandler initialState "c1" (some "  alice ")).2.serverUsers "c1" =
      some ⟨"c1", "alice"⟩ := by
  constructor
  · exact (login_contract initialState "c1" (some "   ")).1 (Or.inr ⟨"   ", rfl, by decide⟩)
  · have h := ((login_contract initialState "c1" (some "  alice ")).2 "  alice " rfl (by decide)).2
    rw [h]
    decide

/-- Witness for C10 at concrete inputs. -/
theorem getMessages_never_errors_witness :
    getMessagesForRoomHandler sC9 "nobody" "room-0" = [] ∧
    getMessagesForRoomHandler sC9 "c1" "room-9" = [] := by
  constructor
  · exact (getMessages_never_errors sC9 "nobody" "room-0").2.2.2.1 rfl
  · exact (getMessages_never_errors sC9 "c1" "room-9").2.2.2.2.2.1 rfl

/-- Witness for C5 at concrete inputs. -/
theorem sendMessage_invalid_input_witness :
    (sendMessageHandler sC5 "c1" (some "") (some "hi")).1 = .err "Room ID and text are required." ∧
    (sendMessageHandler sC5 "c1" (some "") (some "hi")).2.2 = sC5 := by
  have h := sendMessage_invalid_input sC5 "c1" ⟨"c1", "alice"⟩ (some "") (some "hi") rfl
  have h1 := h.1.mpr (Or.inr (Or.inl rfl))
  exact ⟨h1, h.2 "Room ID and text are required." h1⟩

/-- Witness for C3: after alice sends to room-0, membership of the
recipient set matches subscription for bob (in room-0) and eve (not). -/
theorem sendMessage_broadcast_witness :
    ("c2" ∈ roomMembers sC3 "room-0" ↔ subscribed sC3 "c2" "room-0") ∧
    ("c3" ∈ roomMembers sC3 "room-0" ↔ subscribed sC3 "c3" "room-0") := by
  have h := sendMessage_broadcast sC3 "c1" "room-0" "yo" _ _ _ rfl
  exact ⟨h.2.2 "c2", h.2.2 "c3"⟩

/-- Witness for C1: joining room-0 from a double-subscribed state leaves
exactly the room-0 subscription. -/
theorem joinRoom_single_membership_witness :
    (subscribed (joinRoomHandler sC1 "c1" "room-0").2 "c1" "room-0" ↔ ("room-0" : String) = "room-0") ∧
    (subscribed (joinRoomHandler sC1 "c1" "room-0").2 "c1" "room-1" ↔ ("room-1" : String) = "room-0") := by
  have h := joinRoom_single_membership sC1 "c1" "room-0" _ _ rfl
  exact ⟨h "room-0", h "room-1"⟩

/-- Witness for C4: whitespace-only sendMessage leaves the state as is. -/
theorem hard_error_state_unchanged_witness :
    (step sC4 (.sendMessage "c1" (some "room-0") (some "   "))).2.2 = sC4 :=
  hard_error_state_unchanged sC4 (.sendMessage "c1" (some "room-0") (some "   ")) (by decide)

/-- Witness for C2 on a three-call sequence General, general, GENERAL. -/
theorem createRoom_caseInsensitive_once_witness :
    ∃ room : Room,
      (runCreateRoomCalls sC2 [("c1", "General"), ("c2", "general"), ("c1", "GENERAL")]).2.serverRooms
        = sC2.serverRooms ++ [room] ∧
      (runCreateRoomCalls sC2 [("c1", "General"), ("c2", "general"), ("c1", "GENERAL")]).1 =
        CreateRes.ok room true ::
          [(("c2" : String), ("general" : String)), ("c1", "GENERAL")].map
            (fun _ => CreateRes.conflict room false "Room already exists. Joining existing room.") :=
  createRoom_caseInsensitive_once sC2 "general" "c1" "General"
    [("c2", "general"), ("c1", "GENERAL")] (by decide) (by decide) (by decide)

/-- Witness for C6 on the state with an uninitialised log. -/
theorem sendMessage_notfound_lazyinit_witness :
    ∃ m, (sendMessageHandler sC6 "c1" (some "r1") (some "hi")).1 = .ok m ∧
      alookup (sendMessageHandler sC6 "c1" (some "r1") (some "hi")).2.2.serverMessagesByRoom "r1"
        = some [m] :=
  (sendMessage_notfound_lazyinit sC6 "c1" ⟨"c1", "alice"⟩ "r1" "hi"
    (by intro p hp; cases hp) rfl (by decide) (by decide)).2
    ⟨"r1", "general", ⟨"c1", "alice"⟩⟩ (by decide) rfl rfl

/-- Witness for C7 on a concrete send-login-join sequence. -/
theorem sendMessage_roundtrip_witness :
    ([(⟨"msg-1", "room-0", ⟨"c1", "alice"⟩, "hi", 1⟩ : Message)].getLast? =
      some ⟨"msg-1", "room-0", ⟨"c1", "alice"⟩, "hi", 1⟩) ∧
    (⟨"msg-1", "room-0", ⟨"c1", "alice"⟩, "hi", 1⟩ : Message).text = ("hi" : String).jsTrim ∧
    (⟨"msg-1", "room-0", ⟨"c1", "alice"⟩, "hi", 1⟩ : Message).sender.name =
      (⟨"c1", "alice"⟩ : User).name :=
  sendMessage_roundtrip sC7 "c1" ⟨"c1", "alice"⟩ "room-0" "hi" _ _ _ "c2" (some "bob") _ _ _ _
    rfl rfl rfl rfl

/-- Witness for C9 on a reachable state with one stored message. -/
theorem message_room_integrity_witness :
    ∃ r, r ∈ sC9.serverRooms ∧ r.id =
      (⟨"msg-1", "room-0", ⟨"c1", "alice"⟩, "hi", 1⟩ : Message).roomId :=
  message_room_integrity sC9 (reachable_execEvents _ initialState Reachable.init)
    ("room-0", [⟨"msg-1", "room-0", ⟨"c1", "alice"⟩, "hi", 1⟩]) (by decide)
    ⟨"msg-1", "room-0", ⟨"c1", "alice"⟩, "hi", 1⟩ (by decide)

/-- C1 counterexample: after login, createRoom alpha, createRoom beta,
connection c1 is subscribed to two distinct room groups at once, so
createRoom does not preserve the single-membership invariant. -/
theorem single_membership_counterexample :
    subscribed sC1 "c1" "room-0" ∧ subscribed sC1 "c1" "room-1" ∧
    ("room-0" : String) ≠ "room-1" := by decide

/-- C4 counterexample: the createRoom call colliding with an existing
name returns a payload that carries an error string, yet the shared
state is not left as it was: the caller is subscribed to the group of
the existing room. -/
theorem soft_conflict_counterexample :
    (step sC4 (.createRoom "c2" (some "GENERAL"))).1.hasErrorField = true ∧
    (step sC4 (.createRoom "c2" (some "GENERAL"))).2.2 ≠ sC4 := by decide

/-- C5 counterexample: a whitespace-only roomId is blank, yet sendMessage
answers with the NotFound error, not the InvalidInput error. -/
theorem whitespace_roomId_counterexample :
    (" " : String).jsTrim = "" ∧
    (sendMessageHandler sC5 "c1" (some " ") (some "hi")).1 = .err "Room does not exist." ∧
    (sendMessageHandler sC5 "c1" (some " ") (some "hi")).1 ≠ .err "Room ID and text are required." := by decide
